import Mathlib

/-!
Verification of the CosmosDB usage-field migration scripts
(`old.py`, `update_usage.py`, `delete_usage.py`).

Documents are modelled as association lists from field names to JSON-like
values, mirroring the Python dicts returned by the Cosmos client.  The
per-document patch logic, the decision filters, the batched mutation loop,
the count-based pagination fallback and the exit-code propagation of
`old.py` are embedded as executable Lean functions, and the simplified
scripts `update_usage.py` / `delete_usage.py` as their own run functions.
-/

/-- A JSON-like value stored in a document field (`null`, strings, integers,
and nested objects such as the `usage` sub-object). -/
inductive Value where
  | null
  | str (s : String)
  | int (n : Int)
  | obj (fields : List (String × Value))
deriving Repr

/-- Structural boolean equality on values (needed because `deriving
DecidableEq` does not handle the nested `List` occurrence). -/
def Value.beq : Value → Value → Bool
  | .null, .null => true
  | .str a, .str b => a == b
  | .int a, .int b => a == b
  | .obj a, .obj b => beqFields a b
  | _, _ => false
where beqFields : List (String × Value) → List (String × Value) → Bool
  | [], [] => true
  | (k1, v1) :: r1, (k2, v2) :: r2 => k1 == k2 && Value.beq v1 v2 && beqFields r1 r2
  | _, _ => false

theorem Value.beq_iff : ∀ a b : Value, Value.beq a b = true ↔ a = b := by
  apply Value.beq.induct
    (fun l1 l2 => Value.beq.beqFields l1 l2 = true ↔ l1 = l2)
    (fun a b => Value.beq a b = true ↔ a = b)
  · simp [Value.beq]
  · intro a b; simp [Value.beq]
  · intro a b; simp [Value.beq]
  · intro a b ih; simp [Value.beq, ih]
  · intro t x h1 h2 h3 h4
    cases t <;> cases x <;>
      first
        | exact (h1 rfl rfl).elim
        | exact (h2 _ _ rfl rfl).elim
        | exact (h3 _ _ rfl rfl).elim
        | exact (h4 _ _ rfl rfl).elim
        | simp [Value.beq]
  · simp [Value.beq.beqFields]
  · intro k1 v1 r1 k2 v2 r2 ih2 ih1
    simp [Value.beq.beqFields, ih1, ih2, and_assoc]
  · intro t x h1 h2
    cases t <;> cases x <;>
      first
        | exact (h1 rfl rfl).elim
        | exact (h2 _ _ _ _ _ _ rfl rfl).elim
        | simp [Value.beq.beqFields]

instance : DecidableEq Value :=
  fun a b => decidable_of_iff (Value.beq a b = true) (Value.beq_iff a b)

/-- A document: an ordered association list of fields, as a Python dict. -/
def Doc : Type := List (String × Value)

instance : DecidableEq Doc := inferInstanceAs (DecidableEq (List (String × Value)))

/-- Field lookup (`doc.get(k)` / `doc[k]`): first entry with the given key. -/
def dget : Doc → String → Option Value
  | [], _ => none
  | (k1, v) :: rest, k => if k1 = k then some v else dget rest k

/-- Field write (`doc[k] = v`): replace the first entry with the given key,
or append a new entry if the key is absent. -/
def dset : Doc → String → Value → Doc
  | [], k, v => [(k, v)]
  | (k1, v1) :: rest, k, v =>
      if k1 = k then (k, v) :: rest else (k1, v1) :: dset rest k v

/-- Field removal (`del doc[k]`): remove the first entry with the given key. -/
def ddel : Doc → String → Doc
  | [], _ => []
  | (k1, v1) :: rest, k => if k1 = k then rest else (k1, v1) :: ddel rest k

/-- `k in doc`. -/
def hasKey (d : Doc) (k : String) : Bool := (dget d k).isSome

theorem dget_dset_self (d : Doc) (k : String) (v : Value) :
    dget (dset d k v) k = some v := by
  induction d with
  | nil => simp [dset, dget]
  | cons e rest ih =>
      obtain ⟨k1, v1⟩ := e
      by_cases h : k1 = k <;> simp [dset, dget, h, ih]

theorem dget_dset_ne (d : Doc) (k q : String) (v : Value) (h : q ≠ k) :
    dget (dset d k v) q = dget d q := by
  have hkq : ¬ (k = q) := fun e => h e.symm
  induction d with
  | nil => simp [dset, dget, hkq]
  | cons e rest ih =>
      obtain ⟨k1, v1⟩ := e
      by_cases h1 : k1 = k
      · subst h1
        simp [dset, dget, hkq]
      · simp [dset, dget, h1, ih]

theorem dget_ddel_ne (d : Doc) (k q : String) (h : q ≠ k) :
    dget (ddel d k) q = dget d q := by
  induction d with
  | nil => simp [ddel]
  | cons e rest ih =>
      obtain ⟨k1, v1⟩ := e
      by_cases h1 : k1 = k
      · subst h1
        have hkq : ¬ (k1 = q) := fun e => h e.symm
        simp [ddel, dget, hkq]
      · simp [ddel, dget, h1, ih]

theorem ddel_dset_ne (d : Doc) (k q : String) (v : Value) (h : q ≠ k) :
    ddel (dset d k v) q = dset (ddel d q) k v := by
  have hkq : ¬ (k = q) := fun e => h e.symm
  induction d with
  | nil => simp [dset, ddel, hkq]
  | cons e rest ih =>
      obtain ⟨k1, v1⟩ := e
      by_cases h1 : k1 = k
      · subst h1
        simp [dset, ddel, hkq]
      · by_cases h2 : k1 = q <;> simp [dset, ddel, h1, h2, h, hkq, ih]

theorem dget_eq_none_of_not_mem (d : Doc) (k : String)
    (h : k ∉ d.map Prod.fst) : dget d k = none := by
  induction d with
  | nil => simp [dget]
  | cons e rest ih =>
      obtain ⟨k1, v1⟩ := e
      simp only [List.map_cons, List.mem_cons] at h
      push_neg at h
      have h1 : ¬ (k1 = k) := fun e => h.1 e.symm
      simp [dget, h1, ih h.2]

theorem ddel_dset_cancel (d : Doc) (k : String) (v : Value)
    (h : dget d k = none) : ddel (dset d k v) k = d := by
  induction d with
  | nil => simp [dset, ddel]
  | cons e rest ih =>
      obtain ⟨k1, v1⟩ := e
      by_cases h1 : k1 = k
      · simp [dget, h1] at h
      · simp only [dget, h1, if_neg] at h
        simp [dset, ddel, h1, ih h]

theorem dget_ddel_self (d : Doc) (k : String)
    (hnd : (d.map Prod.fst).Nodup) : dget (ddel d k) k = none := by
  induction d with
  | nil => simp [ddel, dget]
  | cons e rest ih =>
      obtain ⟨k1, v1⟩ := e
      simp only [List.map_cons, List.nodup_cons] at hnd
      by_cases h1 : k1 = k
      · subst h1
        simpa [ddel] using dget_eq_none_of_not_mem rest k1 hnd.1
      · simp [ddel, dget, h1, ih hnd.2]

/-! ## Definitions translated from `src/old.py` -/

/-- `UPDATED_BY = "121"` (old.py line 61): the migration run identifier. -/
def UPDATED_BY : String := "121"

/-- The `usage` value written by the forward patch (old.py lines 348-352):
`{completion_tokens: None, prompt_tokens: None, total_tokens: None}`. -/
def usageNull : Value :=
  .obj [("completion_tokens", .null), ("prompt_tokens", .null), ("total_tokens", .null)]

/-- Per-document patch of `update_single_document` (old.py lines 335-364),
parameterised by the revert flag and the timestamp `_utc_now()` returns.
Forward: set `usage` to the all-null object, stamp `updatedAt` and
`updatedBy = "121"`.  Reverse: delete `usage` only when it is present and
`updatedBy == "121"`, then stamp `updatedAt` and `updatedBy = -1`. -/
def update_single_document (revert : Bool) (t : String) (d : Doc) : Doc :=
  if revert then
    let d1 :=
      if hasKey d "usage" ∧ dget d "updatedBy" = some (Value.str UPDATED_BY) then
        ddel d "usage"
      else d
    dset (dset d1 "updatedAt" (Value.str t)) "updatedBy" (Value.int (-1))
  else
    dset (dset (dset d "usage" usageNull) "updatedAt" (Value.str t))
      "updatedBy" (Value.str UPDATED_BY)

/-- The discovery query predicate of old.py line 251:
`c.type = 'message' and c.role = 'assistant'`. -/
def discoveryPred (d : Doc) : Bool :=
  decide (dget d "type" = some (Value.str "message") ∧
          dget d "role" = some (Value.str "assistant"))

/-- Decision filter (old.py lines 279-288): forward keeps documents
lacking `usage`; reverse keeps documents that have `usage` and whose
`updatedBy` equals `UPDATED_BY`. -/
def decisionFilter (revert : Bool) (d : Doc) : Bool :=
  if revert then
    hasKey d "usage" && decide (dget d "updatedBy" = some (Value.str UPDATED_BY))
  else
    !(hasKey d "usage")

/-- `container.upsert_item(doc)`: overwrite-by-id.  Replaces the first
stored document with the same `id`, appending when the id is new. -/
def upsert_item : List Doc → Doc → List Doc
  | [], d => [d]
  | e :: rest, d =>
      if dget e "id" = dget d "id" then d :: rest else e :: upsert_item rest d

/-- The `documents_to_update` list computed by `run_update`
(discovery query followed by the in-memory decision filter). -/
def documents_to_update (revert : Bool) (store : List Doc) : List Doc :=
  (store.filter discoveryPred).filter (decisionFilter revert)

/-- The dry-run preview of old.py line 314: `documents_to_update[:3]`. -/
def dry_run_preview (revert : Bool) (store : List Doc) : List Doc :=
  (documents_to_update revert store).take 3

/-- Store-level effect of `run_update` (old.py lines 242-513) when the
initial discovery query succeeds: discover, decide, and (unless dry-run or
nothing to do) patch-and-upsert every selected document.  `t` stands for
the `_utc_now()` timestamp. -/
def run_update (dry_run revert : Bool) (t : String) (store : List Doc) : List Doc :=
  let toUpdate := documents_to_update revert store
  if toUpdate.isEmpty then store
  else if dry_run then store
  else toUpdate.foldl (fun s d => upsert_item s (update_single_document revert t d)) store

/-- Outcome of one document-processing task, as seen by
`asyncio.gather(..., return_exceptions=True)`:
either the function's return value or a raised exception. -/
inductive ProcResult where
  | ok (b : Bool)
  | exc
deriving DecidableEq, Repr

/-- Result counting of `process_in_batches` (old.py lines 153-160):
exceptions and falsy results are errors, truthy results are updates. -/
def countResults (acc : Nat × Nat) (rs : List ProcResult) : Nat × Nat :=
  rs.foldl
    (fun (c : Nat × Nat) r =>
      match r with
      | .ok true => (c.1 + 1, c.2)
      | .ok false => (c.1, c.2 + 1)
      | .exc => (c.1, c.2 + 1))
    acc

/-- Fuel-driven recursion computing the batch slices
`documents[i:i+batch_size]`; the fuel only needs to be at least the list
length (each step consumes at least one element). -/
def toBatchesAux (bs : Nat) : Nat → List α → List (List α)
  | 0, _ => []
  | _, [] => []
  | fuel + 1, x :: xs => (x :: xs.take (bs - 1)) :: toBatchesAux bs fuel (xs.drop (bs - 1))

/-- The batch slices `documents[i:i+batch_size]` walked by
`process_in_batches` (old.py lines 140-141). -/
def toBatches (bs : Nat) (l : List α) : List (List α) := toBatchesAux bs l.length l

/-- `process_in_batches` (old.py lines 135-164): process the documents in
batches, counting updates and errors; returns
`(updated_count, error_count)`.  Each batch is fully processed (a task's
failure never cancels its siblings or later batches), which the embedding
reflects by applying `f` to every document. -/
def process_in_batches (f : α → ProcResult) (documents : List α) (bs : Nat) : Nat × Nat :=
  (toBatches bs documents).foldl (fun c batch => countResults c (batch.map f)) (0, 0)

/-- Discovery errors distinguishable by `run_update` /
`query_documents_with_count_pagination`: the transport header-size error
(`"Header value is too long"`) and every other exception. -/
inductive DErr where
  | header
  | other
deriving DecidableEq, Repr

/-- One page fetch of the count-based pagination: over a fixed `docs`
snapshot ordered by id, `OFFSET offset LIMIT ps` yields
`(docs.drop offset).take ps`. -/
def fetchPage (docs : List Doc) (offset ps : Nat) : List Doc :=
  (docs.drop offset).take ps

/-- The `while True` loop of `query_documents_with_count_pagination`
(old.py lines 186-232), with `inj ps offset` injecting the exception (if
any) raised while fetching the page at that page size and offset.  A
header-size error with `page_size > 100` halves the page size (floor 100)
and restarts from offset 0 discarding partial results; at the floor it
skips the offending offset range; any other error propagates to the
function-level handler (old.py lines 237-239), which returns `[]`.
`fuel` bounds the number of iterations; `none` means the loop was still
running when the fuel ran out. -/
def paginateLoop (inj : Nat → Nat → Option DErr) (docs : List Doc) :
    Nat → Nat → Nat → List Doc → Option (List Doc)
  | 0, _, _, _ => none
  | fuel + 1, ps, offset, acc =>
    match inj ps offset with
    | some DErr.header =>
        if 100 < ps then
          paginateLoop inj docs fuel (max 100 (ps / 2)) 0 []
        else
          paginateLoop inj docs fuel ps (offset + ps) acc
    | some DErr.other => some []
    | none =>
        let page := fetchPage docs offset ps
        if page.isEmpty then some acc
        else if page.length < ps then some (acc ++ page)
        else paginateLoop inj docs fuel ps (offset + page.length) (acc ++ page)

/-- `query_documents_with_count_pagination` (old.py lines 171-239):
start at page size 1000, offset 0, no accumulated results. -/
def query_documents_with_count_pagination
    (inj : Nat → Nat → Option DErr) (docs : List Doc) (fuel : Nat) : Option (List Doc) :=
  paginateLoop inj docs fuel 1000 0 []

/-- Exception propagation out of `run_update` (old.py lines 242-288):
the result of the initial bulk query decides everything.  A header-size
error falls back to count-based pagination, whose own try/except always
yields a list (an empty one on any internal failure), after which
`run_update` returns normally; any other exception is re-raised.  Below
the discovery level nothing raises: each `update_single_document` catches
its own exceptions and the spot check catches per-document retrieval
errors.  `initial` is the outcome of the initial query (`none` = success),
`inj` injects failures into the pagination fallback, `f` gives each
pending document's mutation outcome. -/
def run_update_outcome (initial : Option DErr) (inj : Nat → Nat → Option DErr)
    (fuel : Nat) (f : Doc → ProcResult) (store : List Doc) :
    Except DErr (Nat × Nat) :=
  match initial with
  | some DErr.other => Except.error DErr.other
  | some DErr.header =>
      match query_documents_with_count_pagination inj (store.filter discoveryPred) fuel with
      | none => Except.ok (0, 0)
      | some docs =>
          if docs.isEmpty then Except.ok (0, 0)
          else Except.ok (process_in_batches f (docs.filter (decisionFilter false)) 50)
  | none =>
      Except.ok (process_in_batches f (documents_to_update false store) 50)

/-- Process exit code of `main` (old.py lines 556-580): any exception
escaping `run_update` is caught and turned into exit code 1; a normal
return yields exit code 0. -/
def main_exit (initial : Option DErr) (inj : Nat → Nat → Option DErr)
    (fuel : Nat) (f : Doc → ProcResult) (store : List Doc) : Nat :=
  match run_update_outcome initial inj fuel f store with
  | Except.error _ => 1
  | Except.ok _ => 0

/-! ## Definitions translated from `src/update_usage.py` and
`src/delete_usage.py` -/

/-- Query predicate of update_usage.py line 40:
`c.type = 'message' AND c.role = 'assistant' AND NOT IS_DEFINED(c.usage)`. -/
def update_usage_query (d : Doc) : Bool :=
  decide (dget d "type" = some (Value.str "message") ∧
          dget d "role" = some (Value.str "assistant")) && !(hasKey d "usage")

/-- Per-document mutation of update_usage.py lines 74-81: identical to the
forward branch of old.py's `update_single_document`. -/
def update_usage_patch (t : String) (d : Doc) : Doc :=
  dset (dset (dset d "usage" usageNull) "updatedAt" (Value.str t))
    "updatedBy" (Value.str UPDATED_BY)

/-- update_usage.py `main` (lines 26-100): collect matching documents,
stopping once `MAX_RECORDS = 100` are gathered, then patch and upsert each.
Returns the final store and `updated_count`. -/
def update_usage_main (t : String) (store : List Doc) : List Doc × Nat :=
  let documents := (store.filter update_usage_query).take 100
  (documents.foldl (fun s d => upsert_item s (update_usage_patch t d)) store,
   documents.length)

/-- Query predicate of delete_usage.py line 23: `IS_DEFINED(c.usage)`. -/
def delete_usage_query (d : Doc) : Bool := hasKey d "usage"

/-- Per-document mutation of delete_usage.py lines 39-44: remove `usage`
whenever present (no `updatedBy` check, no provenance stamps). -/
def delete_usage_patch (d : Doc) : Doc :=
  if hasKey d "usage" then ddel d "usage" else d

/-- delete_usage.py `main` (lines 16-56): collect documents that have
`usage`, stopping once `MAX_RECORDS = 1000` are gathered, then remove the
field and upsert each.  Returns the final store and `deleted_count`. -/
def delete_usage_main (store : List Doc) : List Doc × Nat :=
  let documents := (store.filter delete_usage_query).take 1000
  (documents.foldl (fun s d => upsert_item s (delete_usage_patch d)) store,
   documents.length)

/-! ## Frame lemmas for the per-document patches -/

theorem update_single_document_frame (revert : Bool) (t : String) (d : Doc) (k : String)
    (h1 : k ≠ "usage") (h2 : k ≠ "updatedAt") (h3 : k ≠ "updatedBy") :
    dget (update_single_document revert t d) k = dget d k := by
  cases revert with
  | false =>
      show dget (dset (dset (dset d "usage" usageNull) "updatedAt" (Value.str t))
        "updatedBy" (Value.str UPDATED_BY)) k = dget d k
      rw [dget_dset_ne _ _ _ _ h3, dget_dset_ne _ _ _ _ h2, dget_dset_ne _ _ _ _ h1]
  | true =>
      show dget (dset (dset
        (if hasKey d "usage" ∧ dget d "updatedBy" = some (Value.str UPDATED_BY) then
          ddel d "usage" else d)
        "updatedAt" (Value.str t)) "updatedBy" (Value.int (-1))) k = dget d k
      rw [dget_dset_ne _ _ _ _ h3, dget_dset_ne _ _ _ _ h2]
      split
      · exact dget_ddel_ne _ _ _ h1
      · rfl

theorem update_usage_patch_frame (t : String) (d : Doc) (k : String)
    (h1 : k ≠ "usage") (h2 : k ≠ "updatedAt") (h3 : k ≠ "updatedBy") :
    dget (update_usage_patch t d) k = dget d k := by
  unfold update_usage_patch
  rw [dget_dset_ne _ _ _ _ h3, dget_dset_ne _ _ _ _ h2, dget_dset_ne _ _ _ _ h1]

theorem delete_usage_patch_frame (d : Doc) (k : String) (h1 : k ≠ "usage") :
    dget (delete_usage_patch d) k = dget d k := by
  unfold delete_usage_patch
  split
  · exact dget_ddel_ne _ _ _ h1
  · rfl

theorem update_single_document_id (revert : Bool) (t : String) (d : Doc) :
    dget (update_single_document revert t d) "id" = dget d "id" :=
  update_single_document_frame _ _ _ _ (by decide) (by decide) (by decide)

theorem update_usage_patch_id (t : String) (d : Doc) :
    dget (update_usage_patch t d) "id" = dget d "id" :=
  update_usage_patch_frame _ _ _ (by decide) (by decide) (by decide)

theorem delete_usage_patch_id (d : Doc) :
    dget (delete_usage_patch d) "id" = dget d "id" :=
  delete_usage_patch_frame _ _ (by decide)

/-! ## The batched upsert as a pointwise map over the store -/

theorem foldl_upsert_cons (p : Doc → Doc) (ds : List Doc) :
    ∀ (s : List Doc) (e : Doc), (∀ d ∈ ds, dget (p d) "id" ≠ dget e "id") →
      ds.foldl (fun s d => upsert_item s (p d)) (e :: s)
        = e :: ds.foldl (fun s d => upsert_item s (p d)) s := by
  induction ds with
  | nil => intro s e _; rfl
  | cons d ds ih =>
      intro s e h
      have hne : ¬ (dget e "id" = dget (p d) "id") :=
        fun hh => (h d (by simp)) hh.symm
      simp only [List.foldl_cons]
      rw [show upsert_item (e :: s) (p d) = e :: upsert_item s (p d) by
        simp [upsert_item, hne]]
      exact ih (upsert_item s (p d)) e (fun d' hd' => h d' (List.mem_cons_of_mem _ hd'))

theorem foldl_upsert_filter_eq_map (sel : Doc → Bool) (p : Doc → Doc)
    (hid : ∀ d, dget (p d) "id" = dget d "id") :
    ∀ (store : List Doc), (store.map (fun d => dget d "id")).Nodup →
      (store.filter sel).foldl (fun s d => upsert_item s (p d)) store
        = store.map (fun d => if sel d then p d else d) := by
  intro store
  induction store with
  | nil => intro _; rfl
  | cons e rest ih =>
      intro hnd
      simp only [List.map_cons, List.nodup_cons] at hnd
      have hmem : ∀ d ∈ rest.filter sel, dget (p d) "id" ≠ dget e "id" := by
        intro d hd hh
        rw [hid d] at hh
        exact hnd.1
          (hh ▸ List.mem_map_of_mem (fun d => dget d "id") (List.mem_of_mem_filter hd))
      cases hsel : sel e with
      | true =>
          rw [List.filter_cons_of_pos hsel]
          simp only [List.foldl_cons]
          rw [show upsert_item (e :: rest) (p e) = p e :: rest by
            simp [upsert_item, hid e]]
          rw [foldl_upsert_cons p _ rest (p e)
            (fun d hd => by rw [hid e]; exact hmem d hd)]
          rw [ih hnd.2, List.map_cons, if_pos hsel]
      | false =>
          rw [List.filter_cons_of_neg (by simp [hsel])]
          rw [foldl_upsert_cons p _ rest e hmem, ih hnd.2, List.map_cons, if_neg (by simp [hsel])]

theorem run_update_execute_eq_map (revert : Bool) (t : String) (store : List Doc)
    (hnd : (store.map (fun d => dget d "id")).Nodup) :
    run_update false revert t store
      = store.map (fun d =>
          if decisionFilter revert d && discoveryPred d then
            update_single_document revert t d
          else d) := by
  unfold run_update documents_to_update
  rw [List.filter_filter]
  by_cases hempty :
      (store.filter (fun a => decisionFilter revert a && discoveryPred a)).isEmpty
  · rw [if_pos hempty]
    have h0 := List.filter_eq_nil_iff.mp (List.isEmpty_iff.mp hempty)
    conv_rhs =>
      rw [List.map_congr_left (g := id) (fun a ha => by simp [h0 a ha]), List.map_id]
  · rw [if_neg hempty]
    exact foldl_upsert_filter_eq_map _ _ (update_single_document_id revert t) store hnd

/-- C1: for every document and every mutation (old.py's forward or reverse
patch, update_usage.py's patch, delete_usage.py's patch), only `usage`,
`updatedAt` and `updatedBy` may differ: every other field is unchanged. -/
theorem c1_mutation_frame (revert : Bool) (t : String) (d : Doc) (k : String)
    (h1 : k ≠ "usage") (h2 : k ≠ "updatedAt") (h3 : k ≠ "updatedBy") :
    dget (update_single_document revert t d) k = dget d k ∧
    dget (update_usage_patch t d) k = dget d k ∧
    dget (delete_usage_patch d) k = dget d k :=
  ⟨update_single_document_frame revert t d k h1 h2 h3,
   update_usage_patch_frame t d k h1 h2 h3,
   delete_usage_patch_frame d k h1⟩

/-- Witness for C1 at a concrete document and the extra field `userId`. -/
theorem c1_mutation_frame_witness :
    dget (update_single_document true "2024-01-01T00:00:00Z"
        [("id", Value.str "doc1"), ("userId", Value.str "u7"),
         ("usage", usageNull), ("updatedBy", Value.str "121")]) "userId"
      = dget [("id", Value.str "doc1"), ("userId", Value.str "u7"),
         ("usage", usageNull), ("updatedBy", Value.str "121")] "userId" ∧
    dget (update_usage_patch "2024-01-01T00:00:00Z"
        [("id", Value.str "doc1"), ("userId", Value.str "u7"),
         ("usage", usageNull), ("updatedBy", Value.str "121")]) "userId"
      = dget [("id", Value.str "doc1"), ("userId", Value.str "u7"),
         ("usage", usageNull), ("updatedBy", Value.str "121")] "userId" ∧
    dget (delete_usage_patch
        [("id", Value.str "doc1"), ("userId", Value.str "u7"),
         ("usage", usageNull), ("updatedBy", Value.str "121")]) "userId"
      = dget [("id", Value.str "doc1"), ("userId", Value.str "u7"),
         ("usage", usageNull), ("updatedBy", Value.str "121")] "userId" :=
  c1_mutation_frame true "2024-01-01T00:00:00Z"
    [("id", Value.str "doc1"), ("userId", Value.str "u7"),
     ("usage", usageNull), ("updatedBy", Value.str "121")] "userId"
    (by decide) (by decide) (by decide)

/-! ## Claim C2: attribution scoping of the reverse migration -/

/-- C2 counterexample: delete_usage.py (a cited reverse migration) selects
and mutates a document that has `usage` but whose `updatedBy` is "999",
not the run identifier "121" — refuting "never mutates a document whose
`updatedBy` does not equal the run identifier". -/
theorem c2_reverse_scoping_counterexample :
    dget [("id", Value.str "d1"), ("usage", usageNull), ("updatedBy", Value.str "999")]
        "updatedBy" ≠ some (Value.str UPDATED_BY) ∧
    delete_usage_query
        [("id", Value.str "d1"), ("usage", usageNull), ("updatedBy", Value.str "999")]
      = true ∧
    (delete_usage_main
        [[("id", Value.str "d1"), ("usage", usageNull), ("updatedBy", Value.str "999")]]).1
      ≠ [[("id", Value.str "d1"), ("usage", usageNull), ("updatedBy", Value.str "999")]] := by
  decide

/-- C2 amended: old.py's reverse migration indeed never mutates a document
that lacks `usage` or whose `updatedBy` differs from the run identifier
(its decision filter selects exactly `usage` present ∧ `updatedBy = "121"`);
the simplified delete_usage.py, however, mutates any document with `usage`
regardless of `updatedBy`. -/
theorem c2_reverse_scoping (t : String) (store : List Doc)
    (hnd : (store.map (fun d => dget d "id")).Nodup)
    (i : Nat) (hi : i < store.length)
    (hnot : ¬ (hasKey store[i] "usage" = true ∧
               dget store[i] "updatedBy" = some (Value.str UPDATED_BY))) :
    (run_update false true t store)[i]? = some store[i] := by
  have hd : decisionFilter true store[i] = false := by
    by_contra hcon
    rw [Bool.not_eq_false] at hcon
    have hc2 : (hasKey store[i] "usage"
        && decide (dget store[i] "updatedBy" = some (Value.str UPDATED_BY))) = true := hcon
    rw [Bool.and_eq_true, decide_eq_true_eq] at hc2
    exact hnot hc2
  rw [run_update_execute_eq_map true t store hnd, List.getElem?_map,
    List.getElem?_eq_getElem hi]
  simp [hd]

/-- Witness for C2's amended theorem: a concrete store whose only document
has `usage` but a foreign `updatedBy`; the reverse run leaves it intact. -/
theorem c2_reverse_scoping_witness :
    (run_update false true "2024-01-01T00:00:00Z"
        [[("id", Value.str "d1"), ("usage", usageNull), ("updatedBy", Value.str "999")]])[0]?
      = some [("id", Value.str "d1"), ("usage", usageNull), ("updatedBy", Value.str "999")] :=
  c2_reverse_scoping "2024-01-01T00:00:00Z"
    [[("id", Value.str "d1"), ("usage", usageNull), ("updatedBy", Value.str "999")]]
    (by decide) 0 (by decide) (by decide)

/-! ## Claim C5: the reverse patch function -/

/-- C5 counterexample: delete_usage.py's reverse patch (a cited source of
the claim), applied to a document with `usage` present and
`updatedBy = "999" ≠ "121"`, removes `usage` anyway and does not set
`updatedBy` to the sentinel — refuting the claim as stated. -/
theorem c5_reverse_patch_counterexample :
    dget [("id", Value.str "d2"), ("usage", usageNull), ("updatedBy", Value.str "999")]
        "updatedBy" ≠ some (Value.str UPDATED_BY) ∧
    dget (delete_usage_patch
        [("id", Value.str "d2"), ("usage", usageNull), ("updatedBy", Value.str "999")])
        "usage" = none ∧
    dget (delete_usage_patch
        [("id", Value.str "d2"), ("usage", usageNull), ("updatedBy", Value.str "999")])
        "updatedBy" = some (Value.str "999") := by
  decide

/-- C5 amended: old.py's reverse patch removes `usage` exactly when it is
present and `updatedBy` equals the run identifier, and always stamps
`updatedAt` with the current timestamp and `updatedBy` with the revert
sentinel `-1`; delete_usage.py's patch instead removes `usage` whenever
present and never touches `updatedAt`/`updatedBy`. -/
theorem c5_reverse_patch_spec (t : String) (d : Doc)
    (hnd : (d.map Prod.fst).Nodup) :
    dget (update_single_document true t d) "updatedAt" = some (Value.str t) ∧
    dget (update_single_document true t d) "updatedBy" = some (Value.int (-1)) ∧
    dget (update_single_document true t d) "usage"
      = (if hasKey d "usage" ∧ dget d "updatedBy" = some (Value.str UPDATED_BY)
         then none else dget d "usage") ∧
    dget (delete_usage_patch d) "usage" = none ∧
    dget (delete_usage_patch d) "updatedAt" = dget d "updatedAt" ∧
    dget (delete_usage_patch d) "updatedBy" = dget d "updatedBy" := by
  refine ⟨?_, ?_, ?_, ?_, ?_, ?_⟩
  · show dget (dset (dset _ "updatedAt" (Value.str t)) "updatedBy" (Value.int (-1)))
      "updatedAt" = some (Value.str t)
    rw [dget_dset_ne _ _ _ _ (by decide), dget_dset_self]
  · exact dget_dset_self _ _ _
  · show dget (dset (dset
        (if hasKey d "usage" ∧ dget d "updatedBy" = some (Value.str UPDATED_BY) then
          ddel d "usage" else d) "updatedAt" (Value.str t)) "updatedBy" (Value.int (-1)))
        "usage" = _
    rw [dget_dset_ne _ _ _ _ (by decide), dget_dset_ne _ _ _ _ (by decide)]
    split
    · exact dget_ddel_self d "usage" hnd
    · rfl
  · unfold delete_usage_patch
    split
    · exact dget_ddel_self d "usage" hnd
    · rename_i h
      rw [Bool.not_eq_true] at h
      unfold hasKey at h
      exact Option.not_isSome_iff_eq_none.mp (by simp [h])
  · exact delete_usage_patch_frame d _ (by decide)
  · exact delete_usage_patch_frame d _ (by decide)

/-- Witness for C5's amended theorem at a concrete attributed document. -/
theorem c5_reverse_patch_spec_witness :
    dget (update_single_document true "2024-02-02T00:00:00Z"
        [("id", Value.str "d3"), ("usage", usageNull), ("updatedBy", Value.str "121")])
        "updatedAt" = some (Value.str "2024-02-02T00:00:00Z") ∧
    dget (update_single_document true "2024-02-02T00:00:00Z"
        [("id", Value.str "d3"), ("usage", usageNull), ("updatedBy", Value.str "121")])
        "updatedBy" = some (Value.int (-1)) ∧
    dget (update_single_document true "2024-02-02T00:00:00Z"
        [("id", Value.str "d3"), ("usage", usageNull), ("updatedBy", Value.str "121")])
        "usage"
      = (if hasKey [("id", Value.str "d3"), ("usage", usageNull),
            ("updatedBy", Value.str "121")] "usage" = true ∧
           dget [("id", Value.str "d3"), ("usage", usageNull),
            ("updatedBy", Value.str "121")] "updatedBy" = some (Value.str UPDATED_BY)
         then none
         else dget [("id", Value.str "d3"), ("usage", usageNull),
            ("updatedBy", Value.str "121")] "usage") ∧
    dget (delete_usage_patch [("id", Value.str "d3"), ("usage", usageNull),
        ("updatedBy", Value.str "121")]) "usage" = none ∧
    dget (delete_usage_patch [("id", Value.str "d3"), ("usage", usageNull),
        ("updatedBy", Value.str "121")]) "updatedAt"
      = dget [("id", Value.str "d3"), ("usage", usageNull),
        ("updatedBy", Value.str "121")] "updatedAt" ∧
    dget (delete_usage_patch [("id", Value.str "d3"), ("usage", usageNull),
        ("updatedBy", Value.str "121")]) "updatedBy"
      = dget [("id", Value.str "d3"), ("usage", usageNull),
        ("updatedBy", Value.str "121")] "updatedBy" :=
  c5_reverse_patch_spec "2024-02-02T00:00:00Z"
    [("id", Value.str "d3"), ("usage", usageNull), ("updatedBy", Value.str "121")]
    (by decide)

/-! ## Claim C3: idempotence of the forward migration -/

theorem forward_patch_usage (t : String) (d : Doc) :
    dget (update_single_document false t d) "usage" = some usageNull := by
  show dget (dset (dset (dset d "usage" usageNull) "updatedAt" (Value.str t))
    "updatedBy" (Value.str UPDATED_BY)) "usage" = some usageNull
  rw [dget_dset_ne _ _ _ _ (by decide), dget_dset_ne _ _ _ _ (by decide), dget_dset_self]

theorem forward_patch_updatedBy (t : String) (d : Doc) :
    dget (update_single_document false t d) "updatedBy" = some (Value.str UPDATED_BY) := by
  show dget (dset (dset (dset d "usage" usageNull) "updatedAt" (Value.str t))
    "updatedBy" (Value.str UPDATED_BY)) "updatedBy" = some (Value.str UPDATED_BY)
  exact dget_dset_self _ _ _

theorem run_update_of_empty (dry_run revert : Bool) (t : String) (store : List Doc)
    (h : documents_to_update revert store = []) :
    run_update dry_run revert t store = store := by
  unfold run_update
  rw [h]
  rfl

/-- C3: after a forward execute run, the forward filter selects nothing:
a second forward run finds zero documents to migrate and leaves the store
exactly as the first run left it. -/
theorem c3_forward_idempotent (t1 t2 : String) (store : List Doc)
    (hnd : (store.map (fun d => dget d "id")).Nodup) :
    documents_to_update false (run_update false false t1 store) = [] ∧
    run_update false false t2 (run_update false false t1 store)
      = run_update false false t1 store := by
  have hempty : documents_to_update false (run_update false false t1 store) = [] := by
    rw [run_update_execute_eq_map false t1 store hnd]
    unfold documents_to_update
    rw [List.filter_filter]
    apply List.filter_eq_nil_iff.mpr
    intro x hx
    rw [List.mem_map] at hx
    obtain ⟨d, hd, rfl⟩ := hx
    by_cases hsel : (decisionFilter false d && discoveryPred d) = true
    · rw [if_pos hsel]
      simp [decisionFilter, hasKey, forward_patch_usage]
    · rw [if_neg hsel]
      exact hsel
  exact ⟨hempty, run_update_of_empty false false t2 _ hempty⟩

/-- Witness for C3 on a one-document store needing migration. -/
theorem c3_forward_idempotent_witness :
    documents_to_update false (run_update false false "T1"
        [[("id", Value.str "a"), ("type", Value.str "message"),
          ("role", Value.str "assistant")]]) = [] ∧
    run_update false false "T2" (run_update false false "T1"
        [[("id", Value.str "a"), ("type", Value.str "message"),
          ("role", Value.str "assistant")]])
      = run_update false false "T1"
        [[("id", Value.str "a"), ("type", Value.str "message"),
          ("role", Value.str "assistant")]] :=
  c3_forward_idempotent "T1" "T2"
    [[("id", Value.str "a"), ("type", Value.str "message"),
      ("role", Value.str "assistant")]] (by decide)

/-! ## Claim C4: forward-then-reverse round trip -/

/-- C4: a discovered document initially lacking `usage`, after a forward
execute run followed by a reverse execute run (same run identifier), ends
with no `usage` field, `updatedBy` equal to the revert sentinel `-1`, and
every field outside `usage`/`updatedAt`/`updatedBy` equal to its
pre-forward value. -/
theorem c4_round_trip (t1 t2 : String) (store : List Doc)
    (hnd : (store.map (fun d => dget d "id")).Nodup)
    (i : Nat) (hi : i < store.length)
    (hdp : discoveryPred store[i] = true)
    (hu : hasKey store[i] "usage" = false) :
    ∃ d2,
      (run_update false true t2 (run_update false false t1 store))[i]? = some d2 ∧
      hasKey d2 "usage" = false ∧
      dget d2 "updatedBy" = some (Value.int (-1)) ∧
      ∀ k, k ≠ "usage" → k ≠ "updatedAt" → k ≠ "updatedBy" →
        dget d2 k = dget store[i] k := by
  have hu' : dget store[i] "usage" = none := by
    cases ho : dget store[i] "usage" with
    | none => rfl
    | some v => rw [hasKey, ho] at hu; simp at hu
  have hmap1 := run_update_execute_eq_map false t1 store hnd
  have hids : ((run_update false false t1 store).map (fun d => dget d "id"))
      = store.map (fun d => dget d "id") := by
    rw [hmap1, List.map_map]
    apply List.map_congr_left
    intro d _
    show dget (if decisionFilter false d && discoveryPred d then
      update_single_document false t1 d else d) "id" = dget d "id"
    by_cases hc : (decisionFilter false d && discoveryPred d) = true
    · rw [if_pos hc]
      exact update_single_document_id false t1 d
    · rw [if_neg hc]
  have hnd1 : ((run_update false false t1 store).map (fun d => dget d "id")).Nodup := by
    rw [hids]; exact hnd
  have hmap2 := run_update_execute_eq_map true t2 (run_update false false t1 store) hnd1
  have hc1 : (decisionFilter false store[i] && discoveryPred store[i]) = true := by
    simp [decisionFilter, hasKey, hu', hdp]
  have hcond : hasKey (update_single_document false t1 store[i]) "usage" = true ∧
      dget (update_single_document false t1 store[i]) "updatedBy"
        = some (Value.str UPDATED_BY) := by
    constructor
    · rw [hasKey, forward_patch_usage]; rfl
    · exact forward_patch_updatedBy t1 store[i]
  have hc2 : (decisionFilter true (update_single_document false t1 store[i])
      && discoveryPred (update_single_document false t1 store[i])) = true := by
    have htype := update_single_document_frame false t1 store[i] "type"
      (by decide) (by decide) (by decide)
    have hrole := update_single_document_frame false t1 store[i] "role"
      (by decide) (by decide) (by decide)
    have hdp' := hdp
    rw [discoveryPred, decide_eq_true_eq] at hdp'
    simp [decisionFilter, discoveryPred, hcond.1, hcond.2, htype, hrole, hdp'.1, hdp'.2]
  have hX : ddel (update_single_document false t1 store[i]) "usage"
      = dset (dset store[i] "updatedAt" (Value.str t1)) "updatedBy"
          (Value.str UPDATED_BY) := by
    show ddel (dset (dset (dset store[i] "usage" usageNull) "updatedAt" (Value.str t1))
      "updatedBy" (Value.str UPDATED_BY)) "usage" = _
    rw [ddel_dset_ne _ _ _ _ (by decide), ddel_dset_ne _ _ _ _ (by decide),
      ddel_dset_cancel _ _ _ hu']
  have hd2 : update_single_document true t2 (update_single_document false t1 store[i])
      = dset (dset (dset (dset store[i] "updatedAt" (Value.str t1)) "updatedBy"
          (Value.str UPDATED_BY)) "updatedAt" (Value.str t2)) "updatedBy"
          (Value.int (-1)) := by
    show dset (dset (if hasKey (update_single_document false t1 store[i]) "usage"
        ∧ dget (update_single_document false t1 store[i]) "updatedBy"
            = some (Value.str UPDATED_BY) then
        ddel (update_single_document false t1 store[i]) "usage"
      else update_single_document false t1 store[i]) "updatedAt" (Value.str t2))
      "updatedBy" (Value.int (-1)) = _
    rw [if_pos hcond, hX]
  refine ⟨update_single_document true t2 (update_single_document false t1 store[i]),
    ?_, ?_, ?_, ?_⟩
  · rw [hmap2, List.getElem?_map, hmap1, List.getElem?_map,
      List.getElem?_eq_getElem hi]
    simp only [Option.map_some']
    rw [if_pos hc1, if_pos hc2]
  · rw [hd2, hasKey, dget_dset_ne _ _ _ _ (by decide), dget_dset_ne _ _ _ _ (by decide),
      dget_dset_ne _ _ _ _ (by decide), dget_dset_ne _ _ _ _ (by decide), hu']
    rfl
  · rw [hd2]
    exact dget_dset_self _ _ _
  · intro k h1 h2 h3
    rw [hd2, dget_dset_ne _ _ _ _ h3, dget_dset_ne _ _ _ _ h2,
      dget_dset_ne _ _ _ _ h3, dget_dset_ne _ _ _ _ h2]

/-- Witness for C4 on a concrete one-document store. -/
theorem c4_round_trip_witness :
    ∃ d2,
      (run_update false true "T2" (run_update false false "T1"
        [[("id", Value.str "a"), ("type", Value.str "message"),
          ("role", Value.str "assistant"), ("content", Value.str "hi")]]))[0]?
        = some d2 ∧
      hasKey d2 "usage" = false ∧
      dget d2 "updatedBy" = some (Value.int (-1)) ∧
      ∀ k, k ≠ "usage" → k ≠ "updatedAt" → k ≠ "updatedBy" →
        dget d2 k
          = dget [("id", Value.str "a"), ("type", Value.str "message"),
              ("role", Value.str "assistant"), ("content", Value.str "hi")] k :=
  c4_round_trip "T1" "T2"
    [[("id", Value.str "a"), ("type", Value.str "message"),
      ("role", Value.str "assistant"), ("content", Value.str "hi")]]
    (by decide) 0 (by decide) (by decide) (by decide)

/-! ## Claim C9: dry-run mode -/

/-- C9: in dry-run mode the run performs discovery and decision, the
preview is at most the first 3 candidates, and the store is untouched. -/
theorem c9_dry_run_no_mutation (revert : Bool) (t : String) (store : List Doc) :
    run_update true revert t store = store ∧
    dry_run_preview revert store = (documents_to_update revert store).take 3 ∧
    (dry_run_preview revert store).length ≤ 3 := by
  refine ⟨?_, rfl, ?_⟩
  · simp [run_update]
  · exact List.length_take_le 3 _

/-! ## Claim C10: hard caps of the simplified scripts -/

/-- C10: update_usage.py stops collecting at `MAX_RECORDS = 100` and hence
upserts at most 100 documents; delete_usage.py likewise processes at most
`MAX_RECORDS = 1000`, regardless of how many documents match. -/
theorem c10_simplified_script_caps (t : String) (store : List Doc) :
    (update_usage_main t store).2 ≤ 100 ∧ (delete_usage_main store).2 ≤ 1000 := by
  constructor
  · show ((store.filter update_usage_query).take 100).length ≤ 100
    exact List.length_take_le 100 _
  · show ((store.filter delete_usage_query).take 1000).length ≤ 1000
    exact List.length_take_le 1000 _

/-! ## Claim C7: batched mutation accounting -/

theorem countResults_sum (rs : List ProcResult) :
    ∀ acc : Nat × Nat,
      (countResults acc rs).1 + (countResults acc rs).2 = acc.1 + acc.2 + rs.length := by
  induction rs with
  | nil => intro acc; rfl
  | cons r rs ih =>
      intro acc
      cases r with
      | ok b =>
          cases b with
          | false =>
              show (countResults (acc.1, acc.2 + 1) rs).1
                + (countResults (acc.1, acc.2 + 1) rs).2 = _
              rw [ih]
              simp only [List.length_cons]
              omega
          | true =>
              show (countResults (acc.1 + 1, acc.2) rs).1
                + (countResults (acc.1 + 1, acc.2) rs).2 = _
              rw [ih]
              simp only [List.length_cons]
              omega
      | exc =>
          show (countResults (acc.1, acc.2 + 1) rs).1
            + (countResults (acc.1, acc.2 + 1) rs).2 = _
          rw [ih]
          simp only [List.length_cons]
          omega

theorem foldl_countResults_sum (f : α → ProcResult) (bss : List (List α)) :
    ∀ acc : Nat × Nat,
      ((bss.foldl (fun c batch => countResults c (batch.map f)) acc).1
        + (bss.foldl (fun c batch => countResults c (batch.map f)) acc).2)
      = acc.1 + acc.2 + ((bss.map List.length).sum) := by
  induction bss with
  | nil => intro acc; simp
  | cons b bss ih =>
      intro acc
      simp only [List.foldl_cons, List.map_cons, List.sum_cons]
      rw [ih, countResults_sum]
      simp only [List.length_map]
      omega

theorem toBatchesAux_length_sum (bs : Nat) :
    ∀ (fuel : Nat) (l : List α), l.length ≤ fuel →
      ((toBatchesAux bs fuel l).map List.length).sum = l.length := by
  intro fuel
  induction fuel with
  | zero =>
      intro l hl
      rw [List.length_eq_zero.mp (Nat.le_zero.mp hl)]
      rfl
  | succ fuel ih =>
      intro l hl
      cases l with
      | nil => rfl
      | cons x xs =>
          show ((x :: xs.take (bs - 1)).length
            :: (toBatchesAux bs fuel (xs.drop (bs - 1))).map List.length).sum
            = (x :: xs).length
          rw [List.sum_cons, ih (xs.drop (bs - 1))
            (by simp only [List.length_drop]; simp only [List.length_cons] at hl; omega)]
          simp only [List.length_cons, List.length_take, List.length_drop]
          omega

theorem toBatchesAux_map_length_congr (bs : Nat) :
    ∀ (fuel : Nat) (l1 : List α) (l2 : List β), l1.length = l2.length →
      (toBatchesAux bs fuel l1).map List.length
        = (toBatchesAux bs fuel l2).map List.length := by
  intro fuel
  induction fuel with
  | zero => intro l1 l2 _; cases l1 <;> cases l2 <;> simp [toBatchesAux]
  | succ fuel ih =>
      intro l1 l2 hlen
      cases l1 with
      | nil =>
          cases l2 with
          | nil => rfl
          | cons y ys => simp at hlen
      | cons x xs =>
          cases l2 with
          | nil => simp at hlen
          | cons y ys =>
              simp only [List.length_cons] at hlen
              show (x :: xs.take (bs - 1)).length
                  :: (toBatchesAux bs fuel (xs.drop (bs - 1))).map List.length
                = (y :: ys.take (bs - 1)).length
                  :: (toBatchesAux bs fuel (ys.drop (bs - 1))).map List.length
              rw [ih (xs.drop (bs - 1)) (ys.drop (bs - 1))
                (by simp only [List.length_drop]; omega)]
              have hxy : xs.length = ys.length := by omega
              simp only [List.length_cons, List.length_take, hxy]

/-- C7: in batched mutation every pending document contributes exactly one
to the updated count or the error count, so updated + errored equals the
number of pending documents; and 120 pending documents in batches of 50
are processed as 3 batches of sizes 50, 50, 20.  (A document's failure is
an `ProcResult.exc` or `ProcResult.ok false` value: it is counted, never
cancelling the processing of the other documents.) -/
theorem c7_batch_counts (f : Doc → ProcResult) (documents : List Doc) :
    (process_in_batches f documents 50).1 + (process_in_batches f documents 50).2
      = documents.length ∧
    (documents.length = 120 →
      (toBatches 50 documents).map List.length = [50, 50, 20]) := by
  constructor
  · show ((toBatches 50 documents).foldl
        (fun c batch => countResults c (batch.map f)) (0, 0)).1
      + ((toBatches 50 documents).foldl
        (fun c batch => countResults c (batch.map f)) (0, 0)).2 = documents.length
    rw [foldl_countResults_sum]
    show 0 + 0 + ((toBatchesAux 50 documents.length documents).map List.length).sum
      = documents.length
    rw [toBatchesAux_length_sum 50 documents.length documents (Nat.le_refl _)]
    omega
  · intro h120
    show (toBatchesAux 50 documents.length documents).map List.length = [50, 50, 20]
    rw [toBatchesAux_map_length_congr 50 documents.length documents
      (List.replicate 120 Unit.unit) (by rw [h120]; simp), h120]
    decide

/-- Witness for C7's batch-shape clause at a concrete 120-document list. -/
theorem c7_batch_counts_witness :
    (process_in_batches (fun _ => ProcResult.ok true)
        (List.replicate 120 ([] : Doc)) 50).1
      + (process_in_batches (fun _ => ProcResult.ok true)
        (List.replicate 120 ([] : Doc)) 50).2
      = (List.replicate 120 ([] : Doc)).length ∧
    (toBatches 50 (List.replicate 120 ([] : Doc))).map List.length = [50, 50, 20] :=
  ⟨(c7_batch_counts (fun _ => ProcResult.ok true) (List.replicate 120 ([] : Doc))).1,
   (c7_batch_counts (fun _ => ProcResult.ok true) (List.replicate 120 ([] : Doc))).2
     (by simp)⟩

/-! ## Claim C6: pagination completeness under header-size shrink -/

theorem paginateLoop_correct (docs : List Doc) (inj : Nat → Nat → Option DErr)
    (hno : ∀ ps o, inj ps o ≠ some DErr.other)
    (h100 : ∀ o, inj 100 o = none) :
    ∀ (fuel ps offset : Nat) (acc : List Doc), 100 ≤ ps → offset ≤ docs.length →
      acc = docs.take offset →
      (docs.length + 1 - offset) + ps * (docs.length + 2) < fuel →
      paginateLoop inj docs fuel ps offset acc = some docs := by
  intro fuel
  induction fuel with
  | zero => intro ps offset acc _ _ _ hfuel; omega
  | succ fuel ih =>
      intro ps offset acc hps hoff hacc hfuel
      simp only [paginateLoop]
      split
      · -- header-size error branch
        rename_i h
        by_cases hgt : 100 < ps
        · rw [if_pos hgt]
          have hstep : max 100 (ps / 2) + 1 ≤ ps := by omega
          have hm : (max 100 (ps / 2)) * (docs.length + 2) + (docs.length + 2)
              ≤ ps * (docs.length + 2) := by
            calc (max 100 (ps / 2)) * (docs.length + 2) + (docs.length + 2)
                = (max 100 (ps / 2) + 1) * (docs.length + 2) := by ring
              _ ≤ ps * (docs.length + 2) := Nat.mul_le_mul_right _ hstep
          exact ih (max 100 (ps / 2)) 0 [] (le_max_left _ _) (Nat.zero_le _)
            (by simp) (by omega)
        · have hps100 : ps = 100 := by omega
          rw [hps100] at h
          rw [h100 offset] at h
          exact Option.noConfusion h
      · -- non-transport error branch: impossible under hno
        rename_i h
        exact absurd h (hno ps offset)
      · -- successful fetch branch
        have hplen : (fetchPage docs offset ps).length = min ps (docs.length - offset) := by
          simp [fetchPage, List.length_take, List.length_drop]
        by_cases hemp : (fetchPage docs offset ps).isEmpty
        · rw [if_pos hemp]
          have h0 : (fetchPage docs offset ps).length = 0 := by
            rw [List.isEmpty_iff.mp hemp]; rfl
          have hoffL : offset = docs.length := by omega
          rw [hacc, hoffL, List.take_length]
        · rw [if_neg hemp]
          by_cases hshort : (fetchPage docs offset ps).length < ps
          · rw [if_pos hshort]
            have hfull : fetchPage docs offset ps = docs.drop offset := by
              apply List.take_of_length_le
              rw [List.length_drop]
              omega
            rw [hacc, hfull, List.take_append_drop]
          · rw [if_neg hshort]
            have hlen_eq : (fetchPage docs offset ps).length = ps := by omega
            have hbound : offset + ps ≤ docs.length := by omega
            apply ih
            · exact hps
            · rw [hlen_eq]; omega
            · rw [hacc, hlen_eq]
              show docs.take offset ++ (docs.drop offset).take ps
                = docs.take (offset + ps)
              rw [List.take_add]
            · rw [hlen_eq]
              omega

/-- C6: over a fixed id-ordered document snapshot, with header-size errors
injected at arbitrary page sizes and offsets but never at the floor page
size 100 (so the skip branch is never taken) and no other errors, the
count-based pagination returns exactly the original document set — no
omissions, no duplicates; and each shrink step halves the page size, never
dropping below the floor 100.  (A page shorter than the requested size ends
the loop, by definition of `paginateLoop`.) -/
theorem c6_pagination_complete (docs : List Doc) (inj : Nat → Nat → Option DErr)
    (fuel : Nat)
    (hno : ∀ ps o, inj ps o ≠ some DErr.other)
    (h100 : ∀ o, inj 100 o = none)
    (hfuel : (docs.length + 1) + 1000 * (docs.length + 2) < fuel) :
    query_documents_with_count_pagination inj docs fuel = some docs ∧
    (∀ ps, 100 < ps → 100 ≤ max 100 (ps / 2) ∧ max 100 (ps / 2) < ps) := by
  constructor
  · exact paginateLoop_correct docs inj hno h100 fuel 1000 0 []
      (by omega) (Nat.zero_le _) (by simp) (by omega)
  · intro ps h
    exact ⟨le_max_left _ _, by omega⟩

/-- Witness for C6: two documents, a header-size failure injected at the
initial page size 1000; the shrink-and-restart run still returns both. -/
theorem c6_pagination_complete_witness :
    query_documents_with_count_pagination
      (fun ps _ => if ps = 1000 then some DErr.header else none)
      [[("id", Value.str "a")], [("id", Value.str "b")]] 4005
    = some [[("id", Value.str "a")], [("id", Value.str "b")]] :=
  (c6_pagination_complete [[("id", Value.str "a")], [("id", Value.str "b")]]
    (fun ps _ => if ps = 1000 then some DErr.header else none) 4005
    (by intro ps o; by_cases h : ps = 1000 <;> simp [h])
    (fun o => rfl)
    (by decide)).1

/-! ## Claim C8: error propagation and process exit codes -/

/-- C8 counterexample: a non-transport discovery error raised inside the
count-based pagination fallback is caught by that function's own handler
(old.py line 237-239), which returns an empty result; `run_update` then
returns normally and the process exits 0 — refuting "every discovery error
that is not a transport header-size error causes a nonzero exit". -/
theorem c8_exit_counterexample :
    query_documents_with_count_pagination (fun _ _ => some DErr.other)
      ([[("id", Value.str "x"), ("type", Value.str "message"),
         ("role", Value.str "assistant")]].filter discoveryPred) 3
      = some [] ∧
    main_exit (some DErr.header) (fun _ _ => some DErr.other) 3
      (fun _ => ProcResult.ok true)
      [[("id", Value.str "x"), ("type", Value.str "message"),
        ("role", Value.str "assistant")]] = 0 := by
  decide

/-- C8 amended: the process exits nonzero exactly when the initial bulk
query fails with a non-transport error.  A header-size error on the
initial query is recovered via the pagination fallback, whose own errors
(transport or not) are swallowed into an empty result; and the exit code
never depends on per-document mutation outcomes `f` — sub-discovery errors
never escalate. -/
theorem c8_exit_iff (initial : Option DErr) (inj : Nat → Nat → Option DErr)
    (fuel : Nat) (f : Doc → ProcResult) (store : List Doc) :
    main_exit initial inj fuel f store = 1 ↔ initial = some DErr.other := by
  cases initial with
  | none => simp [main_exit, run_update_outcome]
  | some e =>
      cases e with
      | other => simp [main_exit, run_update_outcome]
      | header =>
          constructor
          · intro h
            exfalso
            unfold main_exit run_update_outcome at h
            cases hq : query_documents_with_count_pagination inj
                (store.filter discoveryPred) fuel with
            | none => rw [hq] at h; simp at h
            | some docs =>
                rw [hq] at h
                by_cases he : docs.isEmpty <;> simp [he] at h
          · intro h
            exact absurd h (by simp)
